import Mathlib

/-!
# Verification of the Mini CTF practice app (`src/app.py`)

Shallow embedding of the core logic of the single-file Streamlit app:
the seeded board generator (`seeded_sample`, `build_room_challenges`),
the submission evaluator (`handle_submit`), the room lifecycle (join /
reset handlers), the timer (`remaining_seconds`, `fmt_hms`) and the
render gates of the page script, together with a discrete interaction
machine (`stepApp` / `runApp`) reflecting Streamlit's execution model:
a widget can only be activated if it was offered by the previous page
run, `on_click` callbacks run before the script re-runs, and each user
interaction is one atomic step.

Python's built-in `hash` on strings is randomized per process
(PYTHONHASHSEED), so every function that calls it is parametrized by
`pyhash : String → Int`, the string-hash function of the running
process.  Python's `str.strip` / `str.lower` are modelled by
`pyStrip` / `pyLower` over the character list.  Python `//` and `%` on
ints are floor division / modulo, i.e. `Int.fdiv` / `Int.fmod`.
-/

namespace MiniCTF

/-- A challenge record, restricted to the fields the embedded logic
reads (`id`, `title`, `flag`, `points`); the remaining fields of the
bank records (prompt, tags, hint, attachments, writeup, ...) are only
ever passed to rendering calls.  `points` is a natural number, per the
data model (`points: integer ≥ 0`). -/
structure Challenge where
  id : String
  title : String
  flag : String
  points : Nat
deriving DecidableEq

/-- `CTF_DURATION_SECONDS = 3 * 60 * 60` from `app.py`. -/
def CTF_DURATION_SECONDS : Int := 3 * 60 * 60

/-- The five fixed category names (`CATEGORIES` in `app.py`). -/
def CATEGORIES : List String := ["web", "osint", "crypto", "forensics", "misc"]

/-- Python `str.strip()`: drop leading and trailing whitespace,
implemented over the underlying character list. -/
def pyStrip (s : String) : String :=
  ⟨(((s.data.dropWhile Char.isWhitespace).reverse.dropWhile Char.isWhitespace).reverse)⟩

/-- Python `str.lower()`: lower-case each character. -/
def pyLower (s : String) : String := ⟨s.data.map Char.toLower⟩

/-- `normalize_flag(s) = (s or "").strip()`: trim leading/trailing
whitespace (the `or ""` null-guard is absorbed by total strings). -/
def normalize_flag (s : String) : String := pyStrip s

/-- `points_for(ch) = int(ch.get("points", 0))`: the challenge's point
value (the bank is well-typed per the data model, so the `int`
conversion never raises). -/
def points_for (ch : Challenge) : Nat := ch.points

/-- Python `f"{n:02d}"` for width 2: a zero is prepended exactly when
the value is a single digit `0..9`; otherwise the decimal rendering is
already at least two characters wide. -/
def pyFmt02 (n : Int) : String :=
  if 0 ≤ n ∧ n < 10 then "0" ++ toString n else toString n

/-- `fmt_hms(seconds)`: render as `HH:MM:SS` with Python's floor
division and modulo. -/
def fmt_hms (seconds : Int) : String :=
  let h := seconds.fdiv 3600
  let m := (seconds.fmod 3600).fdiv 60
  let s := seconds.fmod 60
  pyFmt02 h ++ ":" ++ pyFmt02 m ++ ":" ++ pyFmt02 s

/-- `remaining_seconds(started_at)` evaluated at wall-clock time `now`:
`max(0, CTF_DURATION_SECONDS - (now - started_at))`. -/
def remaining_seconds (started_at now : Int) : Int :=
  max 0 (CTF_DURATION_SECONDS - (now - started_at))

/-- The sort key built in `seeded_sample`:
`f"{seed}:{it.get('id','')}:{it.get('title','')}"`. -/
def sampleKey (seed : Nat) (it : Challenge) : String :=
  toString seed ++ ":" ++ it.id ++ ":" ++ it.title

/-- `seeded_sample(items, k, seed)`: rank each item by
`abs(hash(key))`, sort ascending by rank with Python's `list.sort`
(Timsort, a stable sort — modelled by the stable `List.insertionSort`
on the rank alone), and keep the first `min(k, len)` items.  `pyhash`
is the process's string-hash function. -/
def seeded_sample (pyhash : String → Int) (items : List Challenge) (k : Nat)
    (seed : Nat) : List Challenge :=
  if items.isEmpty then []
  else
    let scored := items.map (fun it => ((pyhash (sampleKey seed it)).natAbs, it))
    let sorted := scored.insertionSort (fun a b => a.1 ≤ b.1)
    (sorted.take (min k scored.length)).map Prod.snd

/-- `build_room_challenges(bank, room_seed)`: the per-category dict
`{c: seeded_sample(bank.get(c, []), 5, room_seed) for c in CATEGORIES}`,
modelled as an association list in `CATEGORIES` order.  The bank is a
total map `String → List Challenge` (missing categories are `[]`). -/
def build_room_challenges (pyhash : String → Int) (bank : String → List Challenge)
    (room_seed : Nat) : List (String × List Challenge) :=
  CATEGORIES.map (fun c => (c, seeded_sample pyhash (bank c) 5 room_seed))

/-- The per-session state initialised by `init_state` and mutated by
the handlers.  The per-challenge flag text inputs
(`st.session_state[flag_key]`) are render-layer widget state; the
typed guess is instead carried by the submit action. -/
structure SessionState where
  room_code : String
  player_name : String
  room_started_at : Option Int
  room_seed : Option Nat
  selected : Option (String × String)
  solved : Finset String
  score : Nat
  team_log : List (Int × String × String × Nat)
  last_submit : Option (String × String)
  do_balloons : Bool
deriving DecidableEq

/-- The defaults installed by `init_state` (`setdefault` calls). -/
def initSession : SessionState :=
  { room_code := "", player_name := "", room_started_at := none,
    room_seed := none, selected := none, solved := ∅, score := 0,
    team_log := [], last_submit := none, do_balloons := false }

/-- `handle_submit(flag_key, correct_flag, sel_id, pts, player)` run at
wall-clock time `t`, with `got_raw` the text currently in the flag
input.  Note the correct branch adds to `score` and `solved`
unconditionally, with no check that `sel_id` is already solved. -/
def handle_submit (got_raw correct_flag sel_id : String) (pts : Nat)
    (player : String) (t : Int) (s : SessionState) : SessionState :=
  let got := normalize_flag got_raw
  let correct := normalize_flag correct_flag
  if got = "" then
    { s with last_submit := some ("error", "Flag cannot be empty.") }
  else if got = correct then
    { s with solved := insert sel_id s.solved,
             score := s.score + pts,
             team_log := s.team_log ++
               [(t, (if player = "" then "Player" else player), sel_id, pts)],
             last_submit := some ("success",
               "Correct! +" ++ toString pts ++ " points."),
             do_balloons := true }
  else
    { s with last_submit := some ("error", "Wrong flag.") }

/-- The "Start / Join Room" handler run at time `t`: with a non-empty
trimmed room code, set `room_seed = abs(hash(code.strip().lower())) % 10**9`
and set `room_started_at = now` only if it is `None`. -/
def joinRoom (pyhash : String → Int) (t : Int) (s : SessionState) : SessionState :=
  if pyStrip s.room_code = "" then s
  else
    let seed := (pyhash (pyLower (pyStrip s.room_code))).natAbs % (10 ^ 9)
    let s1 := { s with room_seed := some seed }
    if s1.room_started_at = none then { s1 with room_started_at := some t }
    else s1

/-- The "Reset (this browser)" handler: clears timer, seed, selection,
solved set, score, log and transient flags.  It does NOT touch
`room_code` or `player_name`. -/
def resetRoom (s : SessionState) : SessionState :=
  { s with room_started_at := none, room_seed := none, selected := none,
           solved := ∅, score := 0, team_log := [],
           last_submit := none, do_balloons := false }

/-- Python truthiness of an optional int field: `None` and `0` are
falsy. -/
def pyTruthyNat : Option Nat → Bool
  | none => false
  | some n => n != 0

/-- Python truthiness of an optional int field: `None` and `0` are
falsy. -/
def pyTruthyInt : Option Int → Bool
  | none => false
  | some n => n != 0

/-- The joined gate of the page script:
`if not st.session_state.room_seed or not st.session_state.room_started_at:
 ... st.stop()`; the board is reached exactly when both fields are
truthy. -/
def joinedGate (s : SessionState) : Bool :=
  pyTruthyNat s.room_seed && pyTruthyInt s.room_started_at

/-- The lookup of the selected challenge on the board:
first `ch` in `room_board.get(sel_cat, [])` with `ch.get("id") == sel_id`. -/
def findOnBoard (board : List (String × List Challenge)) (c i : String) :
    Option Challenge :=
  ((board.lookup c).getD []).find? (fun ch => ch.id == i)

/-- What the last page run left on screen, as far as the embedded
logic is concerned: the session state plus whether the board tiles
were rendered (`boardShown`: the joined gate passed and the timer had
not expired) and whether an enabled Submit button was offered
(`submitEnabled`: additionally a challenge is selected, found on the
board, and not already solved — `disabled=already`). -/
structure AppState where
  sess : SessionState
  boardShown : Bool
  submitEnabled : Bool
deriving DecidableEq

/-- One run of the page script at wall-clock time `t` over session
state `s`: the joined gate (line 205), the expiry gate
(`if rem <= 0: st.stop()`), the selected-challenge gates (lines
262-276) and the `disabled=already` flag of the Submit button. -/
def renderApp (pyhash : String → Int) (bank : String → List Challenge)
    (t : Int) (s : SessionState) : AppState :=
  if joinedGate s then
    if remaining_seconds (s.room_started_at.getD 0) t ≤ 0 then ⟨s, false, false⟩
    else
      match s.selected with
      | none => ⟨s, true, false⟩
      | some (c, i) =>
        match findOnBoard (build_room_challenges pyhash bank (s.room_seed.getD 0)) c i with
        | none => ⟨s, true, false⟩
        | some _ => ⟨s, true, decide (i ∉ s.solved)⟩
  else ⟨s, false, false⟩

/-- The user interactions the page offers: the sidebar Join and Reset
buttons, a challenge tile click, a Submit click carrying the typed
guess, and a bare rerun with no state-changing widget event. -/
inductive Action where
  | join (code name : String)
  | reset
  | selectTile (cat cid : String)
  | submit (guess : String)
  | refresh
deriving DecidableEq

/-- One user interaction at wall-clock time `t`, following Streamlit's
execution model: `on_click` callbacks (tile select, submit) run first
and only if the widget was offered by the previous run (recorded in
`boardShown` / `submitEnabled`); the sidebar Join/Reset branches run
inline; then the page script re-runs at time `t` (`renderApp`).  The
arguments the Submit button binds to `handle_submit` (flag, id,
points) are those of the selected challenge on the board of the last
render. -/
def stepApp (pyhash : String → Int) (bank : String → List Challenge)
    (t : Int) (a : Action) (st : AppState) : AppState :=
  match a with
  | Action.join code name =>
      renderApp pyhash bank t
        (joinRoom pyhash t { st.sess with room_code := code, player_name := name })
  | Action.reset => renderApp pyhash bank t (resetRoom st.sess)
  | Action.selectTile c i =>
      let s' :=
        if st.boardShown &&
           (findOnBoard (build_room_challenges pyhash bank (st.sess.room_seed.getD 0)) c i).isSome
        then { st.sess with selected := some (c, i) } else st.sess
      renderApp pyhash bank t s'
  | Action.submit guess =>
      let s' :=
        if st.submitEnabled then
          match st.sess.selected with
          | some (c, i) =>
            match findOnBoard (build_room_challenges pyhash bank (st.sess.room_seed.getD 0)) c i with
            | some ch =>
                handle_submit guess ch.flag i (points_for ch) st.sess.player_name t st.sess
            | none => st.sess
          | none => st.sess
        else st.sess
      renderApp pyhash bank t s'
  | Action.refresh => renderApp pyhash bank t st.sess

/-- A fresh browser session: `init_state` defaults, nothing rendered
yet (no widget can be activated before the first run). -/
def initApp : AppState := ⟨initSession, false, false⟩

/-- Run a list of timestamped interactions in order. -/
def runApp (pyhash : String → Int) (bank : String → List Challenge)
    (st : AppState) : List (Int × Action) → AppState
  | [] => st
  | p :: rest => runApp pyhash bank (stepApp pyhash bank p.1 p.2 st) rest

/-- Actions that touch neither `room_seed` nor `room_started_at`
(everything except the Join and Reset buttons). -/
def keepsRoom : Action → Bool
  | Action.join _ _ => false
  | Action.reset => false
  | _ => true

/-!
## Specification-side board generator (for the refinement claim C8)

`boardCategorySpec` follows the spec's words: rank every challenge by
the hash of `(seed, id, title)`, sort ascending by rank with ties
broken by original bank order, take the first `min(5, count)`.  The
tie-break is made explicit by sorting position-indexed challenges by
the lexicographic order on (rank, original index).
-/

/-- Attach consecutive position indices, starting at `i`. -/
def attachIdx : Nat → List Challenge → List (Nat × Challenge)
  | _, [] => []
  | i, a :: l => (i, a) :: attachIdx (i + 1) l

/-- Lexicographic order on (rank, original index, challenge): strictly
smaller rank, or equal rank and earlier original position. -/
def lexLE (a b : Nat × Nat × Challenge) : Prop :=
  a.1 < b.1 ∨ (a.1 = b.1 ∧ a.2.1 ≤ b.2.1)

instance : DecidableRel lexLE := fun a b => by
  unfold lexLE; infer_instance

/-- The spec's category selection: sort the indexed challenges by
(rank, original index) lexicographically and keep the first
`min(k, count)`. -/
def boardCategorySpec (pyhash : String → Int) (items : List Challenge)
    (k : Nat) (seed : Nat) : List Challenge :=
  let triples := (attachIdx 0 items).map
    (fun p => ((pyhash (sampleKey seed p.2)).natAbs, p.1, p.2))
  ((triples.insertionSort lexLE).take (min k items.length)).map (fun p => p.2.2)

/-!
## Invariant predicates and concrete test fixtures
-/

/-- The score invariant of §3 of the spec: the score equals the sum of
the points of the solved challenge ids. -/
def scoreInvariant (pts : String → Nat) (s : SessionState) : Prop :=
  s.score = s.solved.sum pts

/-- The flags recorded from the last render are consistent with the
session: an enabled Submit button implies a selected, not yet solved
challenge. -/
def FlagsOK (st : AppState) : Prop :=
  st.submitEnabled = true →
    ∃ c i, st.sess.selected = some (c, i) ∧ i ∉ st.sess.solved

/-- A sample challenge: `{id:"c1", flag:"flag{abc}", points:100}` from
§8 of the spec. -/
def ch1 : Challenge := ⟨"c1", "T1", "flag\x7babc\x7d", 100⟩

/-- A second sample challenge. -/
def ch2 : Challenge := ⟨"c2", "T2", "flag\x7bxyz\x7d", 50⟩

/-- A sample bank: two crypto challenges, all other categories empty. -/
def bank0 : String → List Challenge := fun c => if c = "crypto" then [ch1, ch2] else []

/-- A sample process string-hash function. -/
def h0 : String → Int := fun _ => 7

/-- A process string-hash function that hashes everything to `0`
(CPython's randomized string hash can send any given key to a multiple
of `10^9`). -/
def hz : String → Int := fun _ => 0

/-- A process string-hash function ranking `ch1` after `ch2`. -/
def hA : String → Int := fun s => if s = sampleKey 42 ch1 then 1 else 0

/-- A process string-hash function that collides everything (rank ties). -/
def hB : String → Int := fun _ => 0

/-- Agrees with `hA` on the two sample keys, differs elsewhere. -/
def hC : String → Int :=
  fun s => if s = sampleKey 42 ch2 then 0 else if s = sampleKey 42 ch1 then 1 else 99

/-- The two sample challenges as a category bank list. -/
def itemsC2 : List Challenge := [ch1, ch2]

/-- The points of the sample challenges, as a map on ids. -/
def ptsMap : String → Nat := fun i => if i = "c1" then 100 else if i = "c2" then 50 else 0

/-- Raw `handle_submit` applied twice for the same challenge with the
correct flag (the second call is what the UI's `disabled=already`
prevents). -/
def sDouble : SessionState :=
  handle_submit "flag\x7babc\x7d" "flag\x7babc\x7d" "c1" 100 "Dani" 6
    (handle_submit "flag\x7babc\x7d" "flag\x7babc\x7d" "c1" 100 "Dani" 5 initSession)

/-- A mid-game session used as a reset fixture. -/
def sC5 : SessionState :=
  { room_code := "REHACK-APR29", player_name := "Dani", room_started_at := some 10,
    room_seed := some 7, selected := some ("crypto", "c1"), solved := {"c1"},
    score := 100, team_log := [(12, "Dani", "c1", 100)], last_submit := none,
    do_balloons := false }

/-- A joined session (timer running) used as a join fixture. -/
def sJoined : SessionState :=
  { initSession with room_code := "REHACK-APR29", room_started_at := some 50,
                     room_seed := some 7 }

/-- A fresh session whose room code was typed but not yet joined. -/
def sC10 : SessionState := { initSession with room_code := "abc" }

/-- A session whose room expired with a challenge still selected. -/
def sExpired : SessionState :=
  { initSession with room_code := "room", room_seed := some 7,
                     room_started_at := some 1, selected := some ("crypto", "c1") }

/-- The expired page: flags as left by a render after expiry. -/
def stExpired : AppState := ⟨sExpired, false, false⟩

/-- A session with the sample challenge selected and already solved. -/
def sSolved : SessionState :=
  { initSession with room_code := "room", room_seed := some 7,
                     room_started_at := some 1, selected := some ("crypto", "c1"),
                     solved := {"c1"}, score := 100 }

/-- Join at `t = 1`, select `c1`, then submit the correct flag at
`t = 10801`, i.e. exactly when the 3-hour budget has elapsed. -/
def traceExpirySubmit : List (Int × Action) :=
  [(1, Action.join "room" "Dani"), (2, Action.selectTile "crypto" "c1"),
   (10801, Action.submit "flag\x7babc\x7d")]

/-- A small interaction trace: join, select, solve, re-render. -/
def traceSolve : List (Int × Action) :=
  [(1, Action.join "room" "Dani"), (2, Action.selectTile "crypto" "c1"),
   (3, Action.submit " flag\x7babc\x7d "), (4, Action.refresh)]

/-!
## Frame lemmas
-/

theorem renderApp_sess (pyhash : String → Int) (bank : String → List Challenge)
    (t : Int) (s : SessionState) : (renderApp pyhash bank t s).sess = s := by
  unfold renderApp
  repeat' split
  all_goals rfl

theorem handle_submit_room_fields (g f i : String) (p : Nat) (pl : String)
    (t : Int) (s : SessionState) :
    (handle_submit g f i p pl t s).room_seed = s.room_seed ∧
    (handle_submit g f i p pl t s).room_started_at = s.room_started_at ∧
    (handle_submit g f i p pl t s).room_code = s.room_code ∧
    (handle_submit g f i p pl t s).player_name = s.player_name ∧
    (handle_submit g f i p pl t s).selected = s.selected := by
  dsimp only [handle_submit]
  repeat' split
  all_goals exact ⟨rfl, rfl, rfl, rfl, rfl⟩

theorem joinRoom_game_fields (pyhash : String → Int) (t : Int) (s : SessionState) :
    (joinRoom pyhash t s).score = s.score ∧
    (joinRoom pyhash t s).solved = s.solved ∧
    (joinRoom pyhash t s).team_log = s.team_log ∧
    (joinRoom pyhash t s).selected = s.selected := by
  dsimp only [joinRoom]
  repeat' split
  all_goals exact ⟨rfl, rfl, rfl, rfl⟩

theorem joinRoom_started_some (pyhash : String → Int) (t : Int) (s : SessionState)
    (b : Int) (hb : s.room_started_at = some b) :
    (joinRoom pyhash t s).room_started_at = some b := by
  unfold joinRoom
  split
  · exact hb
  · simp [hb]

/-- Every render leaves consistent flags: an enabled Submit button
means a selected, unsolved challenge. -/
theorem renderApp_flagsOK (pyhash : String → Int) (bank : String → List Challenge)
    (t : Int) (s : SessionState) : FlagsOK (renderApp pyhash bank t s) := by
  intro he
  rw [renderApp_sess]
  unfold renderApp at he
  split at he
  case isTrue =>
    split at he
    case isTrue => simp at he
    case isFalse =>
      cases hsel : s.selected with
      | none => rw [hsel] at he; simp at he
      | some p =>
        obtain ⟨c, i⟩ := p
        rw [hsel] at he
        dsimp only at he
        cases hfind : findOnBoard (build_room_challenges pyhash bank (s.room_seed.getD 0)) c i with
        | none => rw [hfind] at he; simp at he
        | some ch => rw [hfind] at he; exact ⟨c, i, rfl, by simpa using he⟩
  case isFalse => simp at he

/-- A render at an expired time shows neither board nor Submit button:
the script stops right after the countdown. -/
theorem renderApp_expired (pyhash : String → Int) (bank : String → List Challenge)
    (t b : Int) (s : SessionState) (hb : s.room_started_at = some b)
    (ht : b + CTF_DURATION_SECONDS ≤ t) :
    renderApp pyhash bank t s = ⟨s, false, false⟩ := by
  unfold renderApp
  split
  · rw [if_pos]
    rw [hb]
    simp only [Option.getD_some, remaining_seconds, CTF_DURATION_SECONDS] at *
    omega
  · rfl

/-- If the previous render offered neither tiles nor Submit and the
room had started, then any single non-reset interaction at or after
the expiry time leaves score, solved set and log unchanged (and the
page stays in the same shape). -/
theorem stepApp_expired (pyhash : String → Int) (bank : String → List Challenge)
    (b t : Int) (a : Action) (st : AppState)
    (hstart : st.sess.room_started_at = some b)
    (hbs : st.boardShown = false) (hse : st.submitEnabled = false)
    (ha : a ≠ Action.reset) (ht : b + CTF_DURATION_SECONDS ≤ t) :
    (stepApp pyhash bank t a st).sess.score = st.sess.score ∧
    (stepApp pyhash bank t a st).sess.solved = st.sess.solved ∧
    (stepApp pyhash bank t a st).sess.team_log = st.sess.team_log ∧
    (stepApp pyhash bank t a st).sess.room_started_at = some b ∧
    (stepApp pyhash bank t a st).boardShown = false ∧
    (stepApp pyhash bank t a st).submitEnabled = false := by
  cases a with
  | join code name =>
      simp only [stepApp]
      have hb1 : (joinRoom pyhash t
          { st.sess with room_code := code, player_name := name }).room_started_at = some b :=
        joinRoom_started_some _ _ _ _ hstart
      rw [renderApp_expired _ _ _ b _ hb1 ht]
      have hfr := joinRoom_game_fields pyhash t
        { st.sess with room_code := code, player_name := name }
      exact ⟨hfr.1, hfr.2.1, hfr.2.2.1, hb1, rfl, rfl⟩
  | reset => exact absurd rfl ha
  | selectTile c i =>
      simp only [stepApp, hbs, Bool.false_and, Bool.false_eq_true, if_false]
      rw [renderApp_expired _ _ _ b _ hstart ht]
      exact ⟨rfl, rfl, rfl, hstart, rfl, rfl⟩
  | submit guess =>
      simp only [stepApp, hse, Bool.false_eq_true, if_false]
      rw [renderApp_expired _ _ _ b _ hstart ht]
      exact ⟨rfl, rfl, rfl, hstart, rfl, rfl⟩
  | refresh =>
      simp only [stepApp]
      rw [renderApp_expired _ _ _ b _ hstart ht]
      exact ⟨rfl, rfl, rfl, hstart, rfl, rfl⟩

/-- Tile clicks, submits and bare reruns never touch the room seed or
the start timestamp. -/
theorem stepApp_keepsRoom (pyhash : String → Int) (bank : String → List Challenge)
    (t : Int) (a : Action) (st : AppState) (ha : keepsRoom a = true) :
    (stepApp pyhash bank t a st).sess.room_seed = st.sess.room_seed ∧
    (stepApp pyhash bank t a st).sess.room_started_at = st.sess.room_started_at := by
  cases a with
  | join code name => simp [keepsRoom] at ha
  | reset => simp [keepsRoom] at ha
  | selectTile c i =>
      simp only [stepApp]
      rw [renderApp_sess]
      split <;> exact ⟨rfl, rfl⟩
  | submit guess =>
      simp only [stepApp]
      rw [renderApp_sess]
      repeat' split
      all_goals
        first
          | exact ⟨rfl, rfl⟩
          | exact ⟨(handle_submit_room_fields _ _ _ _ _ _ _).1,
                   (handle_submit_room_fields _ _ _ _ _ _ _).2.1⟩
  | refresh =>
      simp only [stepApp]
      rw [renderApp_sess]
      exact ⟨rfl, rfl⟩

/-- `stepApp_keepsRoom` lifted to whole interaction sequences. -/
theorem runApp_keepsRoom (pyhash : String → Int) (bank : String → List Challenge)
    (L : List (Int × Action)) :
    ∀ st : AppState, (∀ p ∈ L, keepsRoom p.2 = true) →
      (runApp pyhash bank st L).sess.room_seed = st.sess.room_seed ∧
      (runApp pyhash bank st L).sess.room_started_at = st.sess.room_started_at := by
  induction L with
  | nil => intro st _; exact ⟨rfl, rfl⟩
  | cons p rest ih =>
      intro st hL
      have hstep := stepApp_keepsRoom pyhash bank p.1 p.2 st (hL p (List.mem_cons_self _ _))
      have hrest := ih (stepApp pyhash bank p.1 p.2 st)
        (fun q hq => hL q (List.mem_cons_of_mem _ hq))
      exact ⟨hrest.1.trans hstep.1, hrest.2.trans hstep.2⟩

/-- Looking a key up in an association list built by pairing each list
element with a function of itself can only return that function's
value at the key. -/
theorem lookup_map_pair (f : String → List Challenge) :
    ∀ (cs : List String) (c : String) (v : List Challenge),
      (cs.map (fun x => (x, f x))).lookup c = some v → v = f c := by
  intro cs
  induction cs with
  | nil => intro c v h; simp [List.lookup] at h
  | cons d rest ih =>
      intro c v h
      simp only [List.map, List.lookup] at h
      split at h
      · rename_i hcd
        rw [eq_of_beq hcd]
        exact (Option.some_inj.1 h).symm
      · exact ih c v h

/-- Any category list found on the room board is the seeded sample of
that category of the bank. -/
theorem lookup_build_room (pyhash : String → Int) (bank : String → List Challenge)
    (seed : Nat) (c : String) (v : List Challenge)
    (h : (build_room_challenges pyhash bank seed).lookup c = some v) :
    v = seeded_sample pyhash (bank c) 5 seed :=
  lookup_map_pair (fun x => seeded_sample pyhash (bank x) 5 seed) CATEGORIES c v h

/-- For the five real categories the lookup succeeds. -/
theorem lookup_build_room_mem (pyhash : String → Int) (bank : String → List Challenge)
    (seed : Nat) (c : String) (hc : c ∈ CATEGORIES) :
    (build_room_challenges pyhash bank seed).lookup c =
      some (seeded_sample pyhash (bank c) 5 seed) := by
  fin_cases hc <;> rfl

/-- Every challenge returned by `seeded_sample` comes from the input
list. -/
theorem mem_seeded_sample (pyhash : String → Int) (items : List Challenge)
    (k seed : Nat) (x : Challenge) (hx : x ∈ seeded_sample pyhash items k seed) :
    x ∈ items := by
  unfold seeded_sample at hx
  split at hx
  · simp at hx
  · simp only [List.mem_map] at hx
    obtain ⟨p, hp, rfl⟩ := hx
    have hp2 := List.take_subset _ _ hp
    rw [List.mem_insertionSort] at hp2
    obtain ⟨it, hit, rfl⟩ := List.mem_map.1 hp2
    exact hit

/-- A challenge found on the board under category `c` belongs to the
bank's list for `c` and carries the looked-up id. -/
theorem findOnBoard_mem_bank (pyhash : String → Int) (bank : String → List Challenge)
    (seed : Nat) (c i : String) (ch : Challenge)
    (h : findOnBoard (build_room_challenges pyhash bank seed) c i = some ch) :
    ch ∈ bank c ∧ ch.id = i := by
  unfold findOnBoard at h
  cases hl : (build_room_challenges pyhash bank seed).lookup c with
  | none => rw [hl] at h; simp at h
  | some v =>
      rw [hl] at h
      simp only [Option.getD_some] at h
      have hmem := List.mem_of_find?_eq_some h
      have hid := List.find?_some h
      rw [lookup_build_room pyhash bank seed c v hl] at hmem
      exact ⟨mem_seeded_sample pyhash (bank c) 5 seed ch hmem, by simpa using hid⟩

/-!
## Claim C2 — board determinism
-/

/-- C2, counterexample: the claim says the generator yields the same
ordered list "across processes and over time, using no process-local
random state".  `seeded_sample` calls Python's `hash`, whose value on
strings is keyed by a per-process secret (PYTHONHASHSEED): two
processes whose hash functions are `hA` and `hB` produce different
boards for the identical bank and seed, so the order does depend on
process-local random state. -/
theorem c2_counterexample :
    seeded_sample hA itemsC2 5 42 ≠ seeded_sample hB itemsC2 5 42 := by decide

/-- C2, amended: within one process the Board Generator is
deterministic — its output is a function of exactly the bank contents,
the seed and the process's string-hash values on the derived keys,
with no wall-clock or other hidden state: any two hash functions that
agree on the keys of the bank entries give identical boards.  (Across
processes CPython randomizes string hashing, so equality fails; see
the counterexample.) -/
theorem c2_determinism (h1 h2 : String → Int) (items : List Challenge) (k seed : Nat)
    (hagree : ∀ it ∈ items, h1 (sampleKey seed it) = h2 (sampleKey seed it)) :
    seeded_sample h1 items k seed = seeded_sample h2 items k seed := by
  unfold seeded_sample
  have hmap : items.map (fun it => ((h1 (sampleKey seed it)).natAbs, it))
      = items.map (fun it => ((h2 (sampleKey seed it)).natAbs, it)) :=
    List.map_congr_left (fun it hit => by rw [hagree it hit])
  rw [hmap]

/-- C2, witness: `hA` and `hC` agree on the two sample keys (and
differ elsewhere), so the boards coincide. -/
theorem c2_witness : seeded_sample hA itemsC2 5 42 = seeded_sample hC itemsC2 5 42 :=
  c2_determinism hA hC itemsC2 5 42 (by decide)

/-!
## Claim C5 — reset completeness
-/

/-- C5, counterexample: the claim says Reset "clears the room code";
the Reset handler never touches `room_code`, so after a reset of a
session whose code is `"REHACK-APR29"` the code is still there, not
cleared. -/
theorem c5_counterexample :
    (resetRoom sC5).room_code = "REHACK-APR29" ∧
    ¬(resetRoom sC5).room_code = "" := by decide

/-- C5, amended: Reset, from any state, clears seed, started_at,
selected, solved set, score and log (`solved = ∅`, `score = 0`,
`log = []`, `selected = none`), and a subsequent join with a non-empty
code starts a fresh timer; however the room code text is left
unchanged, not cleared. -/
theorem c5_reset_completeness (s : SessionState) (pyhash : String → Int)
    (t : Int) (code : String) (hcode : pyStrip code ≠ "") :
    (resetRoom s).solved = ∅ ∧ (resetRoom s).score = 0 ∧
    (resetRoom s).team_log = [] ∧ (resetRoom s).selected = none ∧
    (resetRoom s).room_seed = none ∧ (resetRoom s).room_started_at = none ∧
    (resetRoom s).room_code = s.room_code ∧
    (joinRoom pyhash t { resetRoom s with room_code := code }).room_started_at
      = some t := by
  refine ⟨rfl, rfl, rfl, rfl, rfl, rfl, rfl, ?_⟩
  unfold joinRoom
  rw [if_neg hcode]
  simp [resetRoom]

/-- C5, witness: the amended reset/re-join behaviour at the concrete
mid-game fixture. -/
theorem c5_witness :
    (resetRoom sC5).solved = ∅ ∧ (resetRoom sC5).score = 0 ∧
    (resetRoom sC5).team_log = [] ∧ (resetRoom sC5).selected = none ∧
    (resetRoom sC5).room_seed = none ∧ (resetRoom sC5).room_started_at = none ∧
    (resetRoom sC5).room_code = sC5.room_code ∧
    (joinRoom h0 77 { resetRoom sC5 with room_code := "newroom" }).room_started_at
      = some 77 :=
  c5_reset_completeness sC5 h0 77 "newroom" (by decide)

/-!
## Claim C6 — join idempotence
-/

/-- C6: joining again with the same non-empty room code after the room
has already been joined leaves `started_at` unchanged — the handler
only sets `room_started_at` when it is `None`. -/
theorem c6_join_keeps_timer (pyhash : String → Int) (t : Int) (s : SessionState)
    (b : Int) (hcode : pyStrip s.room_code ≠ "") (hb : s.room_started_at = some b) :
    (joinRoom pyhash t s).room_started_at = some b :=
  joinRoom_started_some pyhash t s b hb

/-- C6, witness: re-joining the already-joined fixture at time `99`
keeps `started_at = 50`. -/
theorem c6_witness : (joinRoom h0 99 sJoined).room_started_at = some 50 :=
  c6_join_keeps_timer h0 99 sJoined 50 (by decide) rfl

/-!
## Claim C7 — flag comparison
-/

/-- C7: the evaluator trims both guess and canonical flag
(`normalize_flag`) and compares with exact case-sensitive string
equality: a non-empty trimmed guess equal to the trimmed flag yields
the success outcome with the score increased by exactly the
challenge's points and one log entry appended; a non-empty trimmed
guess that differs (e.g. only in letter case) yields the error outcome
with no score, solved-set or log change. -/
theorem c7_flag_comparison (s : SessionState) (got_raw correct_flag sel_id player : String)
    (pts : Nat) (t : Int) :
    (normalize_flag got_raw ≠ "" → normalize_flag got_raw = normalize_flag correct_flag →
      (handle_submit got_raw correct_flag sel_id pts player t s).score = s.score + pts ∧
      (handle_submit got_raw correct_flag sel_id pts player t s).solved = insert sel_id s.solved ∧
      (handle_submit got_raw correct_flag sel_id pts player t s).team_log =
        s.team_log ++ [(t, (if player = "" then "Player" else player), sel_id, pts)] ∧
      (handle_submit got_raw correct_flag sel_id pts player t s).last_submit =
        some ("success", "Correct! +" ++ toString pts ++ " points.")) ∧
    (normalize_flag got_raw ≠ "" → ¬normalize_flag got_raw = normalize_flag correct_flag →
      (handle_submit got_raw correct_flag sel_id pts player t s).score = s.score ∧
      (handle_submit got_raw correct_flag sel_id pts player t s).solved = s.solved ∧
      (handle_submit got_raw correct_flag sel_id pts player t s).team_log = s.team_log ∧
      (handle_submit got_raw correct_flag sel_id pts player t s).last_submit =
        some ("error", "Wrong flag.")) := by
  constructor
  · intro h1 h2
    dsimp only [handle_submit]
    rw [if_neg h1, if_pos h2]
    exact ⟨rfl, rfl, rfl, rfl⟩
  · intro h1 h2
    dsimp only [handle_submit]
    rw [if_neg h1, if_neg h2]
    exact ⟨rfl, rfl, rfl, rfl⟩

/-- C7, witness: the spec's §8 examples — guess `" flag{abc} "` with
surrounding whitespace is Correct (+100, one log entry), and guess
`"flag{ABC}"` differing only in case is Incorrect with no change. -/
theorem c7_witness :
    ((handle_submit " flag\x7babc\x7d " "flag\x7babc\x7d" "c1" 100 "Dani" 5 initSession).score
        = initSession.score + 100 ∧
     (handle_submit " flag\x7babc\x7d " "flag\x7babc\x7d" "c1" 100 "Dani" 5 initSession).solved
        = insert "c1" initSession.solved ∧
     (handle_submit " flag\x7babc\x7d " "flag\x7babc\x7d" "c1" 100 "Dani" 5 initSession).team_log
        = initSession.team_log ++ [(5, "Dani", "c1", 100)] ∧
     (handle_submit " flag\x7babc\x7d " "flag\x7babc\x7d" "c1" 100 "Dani" 5 initSession).last_submit
        = some ("success", "Correct! +" ++ toString 100 ++ " points.")) ∧
    ((handle_submit "flag\x7bABC\x7d" "flag\x7babc\x7d" "c1" 100 "Dani" 7 initSession).score
        = initSession.score ∧
     (handle_submit "flag\x7bABC\x7d" "flag\x7babc\x7d" "c1" 100 "Dani" 7 initSession).solved
        = initSession.solved ∧
     (handle_submit "flag\x7bABC\x7d" "flag\x7babc\x7d" "c1" 100 "Dani" 7 initSession).team_log
        = initSession.team_log ∧
     (handle_submit "flag\x7bABC\x7d" "flag\x7babc\x7d" "c1" 100 "Dani" 7 initSession).last_submit
        = some ("error", "Wrong flag.")) := by
  constructor
  · have h := (c7_flag_comparison initSession " flag\x7babc\x7d " "flag\x7babc\x7d" "c1" "Dani"
      100 5).1 (by decide) (by decide)
    simpa using h
  · have h := (c7_flag_comparison initSession "flag\x7bABC\x7d" "flag\x7babc\x7d" "c1" "Dani"
      100 7).2 (by decide) (by decide)
    simpa using h

/-!
## Claim C9 — monotonic, non-negative, clamped timer
-/

/-- C9: for every `started_at` and observation times `t1 ≤ t2`,
`remaining_seconds` is non-increasing and never negative, and once the
full duration has elapsed the displayed time is clamped at
`00:00:00`. -/
theorem c9_timer (started t1 t2 : Int) (h12 : t1 ≤ t2) :
    remaining_seconds started t2 ≤ remaining_seconds started t1 ∧
    0 ≤ remaining_seconds started t1 ∧ 0 ≤ remaining_seconds started t2 ∧
    (CTF_DURATION_SECONDS ≤ t2 - started →
      fmt_hms (remaining_seconds started t2) = "00:00:00") := by
  refine ⟨?_, ?_, ?_, ?_⟩
  · simp only [remaining_seconds]; omega
  · exact le_max_left 0 _
  · exact le_max_left 0 _
  · intro hE
    have h0 : remaining_seconds started t2 = 0 := by
      simp only [remaining_seconds, CTF_DURATION_SECONDS] at *
      omega
    rw [h0]
    decide

/-- C9, witness: concrete times, including an observation past the
3-hour budget rendering as `00:00:00`. -/
theorem c9_witness :
    remaining_seconds 1 20000 ≤ remaining_seconds 1 5 ∧
    0 ≤ remaining_seconds 1 5 ∧ 0 ≤ remaining_seconds 1 20000 ∧
    fmt_hms (remaining_seconds 1 20000) = "00:00:00" := by
  obtain ⟨a, b, c, d⟩ := c9_timer 1 5 20000 (by decide)
  exact ⟨a, b, c, d (by decide)⟩

/-!
## Claim C10 — joined gate after a successful join
-/

/-- A fresh join with a non-empty code records the derived seed and
the join time. -/
theorem joinRoom_fresh (pyhash : String → Int) (t : Int) (s : SessionState)
    (hcode : pyStrip s.room_code ≠ "") (hstart : s.room_started_at = none) :
    (joinRoom pyhash t s).room_seed =
      some ((pyhash (pyLower (pyStrip s.room_code))).natAbs % 10 ^ 9) ∧
    (joinRoom pyhash t s).room_started_at = some t := by
  unfold joinRoom
  rw [if_neg hcode]
  simp [hstart]

/-- C10, counterexample: the claim demands that after a successful
join the board is shown for every seed in `[0, 10^9)` "including seed
0".  The joined gate tests Python truthiness (`not room_seed`), and
`0` is falsy: in a process whose string hash sends the code to a
multiple of `10^9` the join succeeds (seed and start time are set),
yet every subsequent render fails the gate and shows the join-room
warning instead of the board. -/
theorem c10_counterexample :
    (joinRoom hz 100 sC10).room_seed = some 0 ∧
    (joinRoom hz 100 sC10).room_started_at = some 100 ∧
    joinedGate (joinRoom hz 100 sC10) = false ∧
    (renderApp hz bank0 101 (joinRoom hz 100 sC10)).boardShown = false := by decide

/-- C10, amended: after a successful join (non-empty code, at a
non-zero time) whose derived seed is non-zero, every subsequent render
treats the session as joined — the joined gate stays true across any
sequence of tile clicks, submissions and re-renders (anything but
another Join or a Reset). -/
theorem c10_joined_gate (pyhash : String → Int) (bank : String → List Challenge)
    (st : AppState) (t : Int) (code name : String)
    (hcode : pyStrip code ≠ "")
    (hseed : (pyhash (pyLower (pyStrip code))).natAbs % 10 ^ 9 ≠ 0)
    (hstart : st.sess.room_started_at = none) (ht : t ≠ 0)
    (L : List (Int × Action)) (hL : ∀ p ∈ L, keepsRoom p.2 = true) :
    joinedGate (runApp pyhash bank
      (stepApp pyhash bank t (Action.join code name) st) L).sess = true := by
  have hkeep := runApp_keepsRoom pyhash bank L
    (stepApp pyhash bank t (Action.join code name) st) hL
  have hJ : joinedGate (runApp pyhash bank
        (stepApp pyhash bank t (Action.join code name) st) L).sess =
      joinedGate (stepApp pyhash bank t (Action.join code name) st).sess := by
    unfold joinedGate
    rw [hkeep.1, hkeep.2]
  rw [hJ]
  simp only [stepApp]
  rw [renderApp_sess]
  have hj := joinRoom_fresh pyhash t
    { st.sess with room_code := code, player_name := name } hcode hstart
  unfold joinedGate
  rw [hj.1, hj.2]
  simp only [pyTruthyNat, pyTruthyInt, Bool.and_eq_true, bne_iff_ne]
  exact ⟨hseed, ht⟩

/-- C10, witness: joining with code `"abc"` at time `1` in a process
hashing it to `7`, then re-rendering, keeps the gate open. -/
theorem c10_witness :
    joinedGate (runApp h0 bank0
      (stepApp h0 bank0 1 (Action.join "abc" "Dani") initApp)
      [(2, Action.refresh)]).sess = true :=
  c10_joined_gate h0 bank0 initApp 1 "abc" "Dani" (by decide) (by decide) rfl
    (by decide) [(2, Action.refresh)] (by decide)

/-!
## Claim C4 — expiry gate
-/

/-- C4, counterexample: the claim says that once `elapsed >= duration`
every further submission is rejected and cannot mutate score, solved
set or log.  But `handle_submit` performs no time check, and the
expiry gate only stops the page script: a Submit button still on
screen from a render made before expiry fires its callback first.  In
the trace below the room is joined at `t = 1` and the correct flag is
submitted at `t = 10801`, when `remaining_seconds` is already `0`
(Expired) — yet the score rises from `0` to `100`, the id is added to
the solved set and a log entry is appended. -/
theorem c4_counterexample :
    remaining_seconds 1 10801 = 0 ∧
    (runApp h0 bank0 initApp (traceExpirySubmit.take 2)).sess.score = 0 ∧
    (runApp h0 bank0 initApp traceExpirySubmit).sess.score = 100 ∧
    (runApp h0 bank0 initApp traceExpirySubmit).sess.solved = {"c1"} ∧
    (runApp h0 bank0 initApp traceExpirySubmit).sess.team_log =
      [(10801, "Dani", "c1", 100)] := by decide

/-- C4, amended: once the page has re-rendered after expiry (so the
board and the Submit button are no longer offered), no sequence of
non-Reset interactions occurring at or after the expiry time can
change score, solved set or log — every further submission is a
no-op until a Reset. -/
theorem c4_expired_no_mutation (pyhash : String → Int) (bank : String → List Challenge)
    (b : Int) (st : AppState) (L : List (Int × Action))
    (hstart : st.sess.room_started_at = some b)
    (hbs : st.boardShown = false) (hse : st.submitEnabled = false)
    (hL : ∀ p ∈ L, p.2 ≠ Action.reset ∧ b + CTF_DURATION_SECONDS ≤ p.1) :
    (runApp pyhash bank st L).sess.score = st.sess.score ∧
    (runApp pyhash bank st L).sess.solved = st.sess.solved ∧
    (runApp pyhash bank st L).sess.team_log = st.sess.team_log := by
  induction L generalizing st with
  | nil => exact ⟨rfl, rfl, rfl⟩
  | cons p rest ih =>
      obtain ⟨ha, ht⟩ := hL p (List.mem_cons_self _ _)
      obtain ⟨h1, h2, h3, h4, h5, h6⟩ :=
        stepApp_expired pyhash bank b p.1 p.2 st hstart hbs hse ha ht
      have hrest := ih (stepApp pyhash bank p.1 p.2 st) h4 h5 h6
        (fun q hq => hL q (List.mem_cons_of_mem _ hq))
      simp only [runApp]
      exact ⟨hrest.1.trans h1, hrest.2.1.trans h2, hrest.2.2.trans h3⟩

/-- C4, witness: on the expired fixture page, a correct-flag submit at
`t = 10900` changes nothing. -/
theorem c4_witness :
    (runApp h0 bank0 stExpired [(10900, Action.submit "flag\x7babc\x7d")]).sess.score
      = stExpired.sess.score ∧
    (runApp h0 bank0 stExpired [(10900, Action.submit "flag\x7babc\x7d")]).sess.solved
      = stExpired.sess.solved ∧
    (runApp h0 bank0 stExpired [(10900, Action.submit "flag\x7babc\x7d")]).sess.team_log
      = stExpired.sess.team_log :=
  c4_expired_no_mutation h0 bank0 1 stExpired [(10900, Action.submit "flag\x7babc\x7d")]
    rfl rfl rfl (by decide)

/-!
## Claim C3 — idempotent solve through the submission path
-/

/-- C3: once a challenge id is in the solved set, the submission path
for it is disabled (`disabled=already` on both the input and the
Submit button), so a further submit interaction — whatever the guess —
leaves score, solved set and log unchanged: the single credit already
given is never exceeded. -/
theorem c3_solved_submit_noop (pyhash : String → Int) (bank : String → List Challenge)
    (tr t : Int) (s : SessionState) (guess c cid : String)
    (hsel : s.selected = some (c, cid)) (hsolved : cid ∈ s.solved) :
    (stepApp pyhash bank t (Action.submit guess)
        (renderApp pyhash bank tr s)).sess.score = s.score ∧
    (stepApp pyhash bank t (Action.submit guess)
        (renderApp pyhash bank tr s)).sess.solved = s.solved ∧
    (stepApp pyhash bank t (Action.submit guess)
        (renderApp pyhash bank tr s)).sess.team_log = s.team_log := by
  have hen : (renderApp pyhash bank tr s).submitEnabled = false := by
    unfold renderApp
    split
    · split
      · rfl
      · rw [hsel]
        dsimp only
        split
        · rfl
        · simpa using hsolved
    · rfl
  simp only [stepApp, hen, Bool.false_eq_true, if_false]
  rw [renderApp_sess, renderApp_sess]
  exact ⟨rfl, rfl, rfl⟩

/-- C3, witness: with `c1` already solved and selected, submitting its
correct flag again changes nothing. -/
theorem c3_witness :
    (stepApp h0 bank0 9 (Action.submit "flag\x7babc\x7d")
        (renderApp h0 bank0 8 sSolved)).sess.score = sSolved.score ∧
    (stepApp h0 bank0 9 (Action.submit "flag\x7babc\x7d")
        (renderApp h0 bank0 8 sSolved)).sess.solved = sSolved.solved ∧
    (stepApp h0 bank0 9 (Action.submit "flag\x7babc\x7d")
        (renderApp h0 bank0 8 sSolved)).sess.team_log = sSolved.team_log :=
  c3_solved_submit_noop h0 bank0 8 9 sSolved "flag\x7babc\x7d" "crypto" "c1" rfl (by decide)

/-!
## Claim C1 — score invariant
-/

/-- Every interaction ends in a render, so every reachable page has
consistent flags. -/
theorem stepApp_flagsOK (pyhash : String → Int) (bank : String → List Challenge)
    (t : Int) (a : Action) (st : AppState) : FlagsOK (stepApp pyhash bank t a st) := by
  cases a <;> (simp only [stepApp]; exact renderApp_flagsOK _ _ _ _)

/-- One interaction preserves both the score invariant and the flag
consistency.  The only interesting case is an enabled submit: the
Submit button is enabled only for a selected challenge not yet solved,
so a correct guess adds a fresh id together with exactly its bank
points. -/
theorem stepApp_scoreInv (pyhash : String → Int) (bank : String → List Challenge)
    (pts : String → Nat) (hb : ∀ c : String, ∀ ch ∈ bank c, ch.points = pts ch.id)
    (t : Int) (a : Action) (st : AppState)
    (hinv : scoreInvariant pts st.sess) (hok : FlagsOK st) :
    scoreInvariant pts (stepApp pyhash bank t a st).sess ∧
    FlagsOK (stepApp pyhash bank t a st) := by
  cases a with
  | join code name =>
      refine ⟨?_, stepApp_flagsOK _ _ _ _ _⟩
      simp only [stepApp]
      rw [renderApp_sess]
      unfold scoreInvariant
      have hfr := joinRoom_game_fields pyhash t
        { st.sess with room_code := code, player_name := name }
      rw [hfr.1, hfr.2.1]
      exact hinv
  | reset =>
      refine ⟨?_, stepApp_flagsOK _ _ _ _ _⟩
      simp only [stepApp]
      rw [renderApp_sess]
      unfold scoreInvariant resetRoom
      simp
  | selectTile c i =>
      refine ⟨?_, stepApp_flagsOK _ _ _ _ _⟩
      simp only [stepApp]
      rw [renderApp_sess]
      unfold scoreInvariant
      split
      · exact hinv
      · exact hinv
  | refresh =>
      refine ⟨?_, stepApp_flagsOK _ _ _ _ _⟩
      simp only [stepApp]
      rw [renderApp_sess]
      exact hinv
  | submit guess =>
      refine ⟨?_, stepApp_flagsOK _ _ _ _ _⟩
      simp only [stepApp]
      rw [renderApp_sess]
      by_cases he : st.submitEnabled = true
      · obtain ⟨c, i, hsel, hns⟩ := hok he
        rw [if_pos he, hsel]
        dsimp only
        split
        · rename_i ch hfind
          obtain ⟨hmem, hid⟩ := findOnBoard_mem_bank pyhash bank
            (st.sess.room_seed.getD 0) c i ch hfind
          have hpts : points_for ch = pts i := by
            rw [points_for, hb c ch hmem, hid]
          unfold scoreInvariant handle_submit
          dsimp only
          split
          · exact hinv
          · split
            · dsimp only
              rw [Finset.sum_insert hns, hpts, hinv]
              exact Nat.add_comm _ _
            · exact hinv
        · exact hinv
      · rw [if_neg he]
        exact hinv

/-- `stepApp_scoreInv` lifted to whole interaction sequences. -/
theorem runApp_scoreInv (pyhash : String → Int) (bank : String → List Challenge)
    (pts : String → Nat) (hb : ∀ c : String, ∀ ch ∈ bank c, ch.points = pts ch.id)
    (L : List (Int × Action)) :
    ∀ st : AppState, scoreInvariant pts st.sess → FlagsOK st →
      scoreInvariant pts (runApp pyhash bank st L).sess ∧
      FlagsOK (runApp pyhash bank st L) := by
  induction L with
  | nil => intro st h1 h2; exact ⟨h1, h2⟩
  | cons p rest ih =>
      intro st h1 h2
      obtain ⟨h1', h2'⟩ := stepApp_scoreInv pyhash bank pts hb p.1 p.2 st h1 h2
      exact ih (stepApp pyhash bank p.1 p.2 st) h1' h2'

/-- C1, counterexample: the claim's parenthetical says a submit call
for an id already in the solved set preserves the equality
`score = sum of points over solved`.  `handle_submit` has no
already-solved check: calling it twice with the correct flag for the
same challenge (`c1`, 100 points) leaves `solved = {c1}` (set insert
is idempotent) but `score = 200`, breaking the invariant. -/
theorem c1_counterexample :
    sDouble.score = 200 ∧ sDouble.solved = {"c1"} ∧
    sDouble.solved.sum ptsMap = 100 ∧
    ¬sDouble.score = sDouble.solved.sum ptsMap := by decide

/-- C1, amended: across every sequence of interactions through the
app's submission path — where the Submit button is disabled once the
selected challenge is solved, so no correct-flag submit is ever
delivered for an already-solved id — the score always equals the sum
of the bank points over the solved set.  (A direct `handle_submit`
call for an already-solved id would instead double-credit; see the
counterexample.) -/
theorem c1_score_invariant (pyhash : String → Int) (bank : String → List Challenge)
    (pts : String → Nat) (hb : ∀ c : String, ∀ ch ∈ bank c, ch.points = pts ch.id)
    (L : List (Int × Action)) :
    (runApp pyhash bank initApp L).sess.score =
      (runApp pyhash bank initApp L).sess.solved.sum pts := by
  have h := runApp_scoreInv pyhash bank pts hb L initApp
    (by simp [scoreInvariant, initApp, initSession])
    (by intro h; simp [initApp] at h)
  exact h.1

/-- C1, witness: a join / select / solve / re-render trace on the
two-challenge bank keeps `score = sum of points over solved`. -/
theorem c1_witness :
    (runApp h0 bank0 initApp traceSolve).sess.score =
      (runApp h0 bank0 initApp traceSolve).sess.solved.sum ptsMap := by
  refine c1_score_invariant h0 bank0 ptsMap ?_ traceSolve
  intro c ch h
  unfold bank0 at h
  split at h
  · fin_cases h <;> decide
  · simp at h

/-!
## Claim C8 — the board generator is stable-sort-by-rank, tie-broken
by bank order, truncated to `min(5, count)`
-/

theorem attachIdx_map_snd : ∀ (i : Nat) (l : List Challenge),
    (attachIdx i l).map Prod.snd = l := by
  intro i l
  induction l generalizing i with
  | nil => rfl
  | cons a l ih => simp [attachIdx, ih]

theorem mem_attachIdx : ∀ (i : Nat) (l : List Challenge) (p : Nat × Challenge),
    p ∈ attachIdx i l → i ≤ p.1 := by
  intro i l
  induction l generalizing i with
  | nil => intro p hp; simp [attachIdx] at hp
  | cons a l ih =>
      intro p hp
      simp only [attachIdx, List.mem_cons] at hp
      rcases hp with h | h
      · simp [h]
      · exact Nat.le_of_succ_le (ih (i + 1) p h)

theorem attachIdx_pairwise : ∀ (i : Nat) (l : List Challenge),
    (attachIdx i l).Pairwise (fun p q => p.1 < q.1) := by
  intro i l
  induction l generalizing i with
  | nil => exact List.Pairwise.nil
  | cons a l ih =>
      refine List.pairwise_cons.2 ⟨?_, ih (i + 1)⟩
      intro q hq
      have := mem_attachIdx (i + 1) l q hq
      omega

/-- Inserting an element is the same under two orders that agree on
how the element compares with everything in the list. -/
theorem orderedInsert_congr {α : Type} (r s : α → α → Prop)
    [DecidableRel r] [DecidableRel s] (a : α) :
    ∀ L : List α, (∀ b ∈ L, (r a b ↔ s a b)) →
      L.orderedInsert r a = L.orderedInsert s a := by
  intro L
  induction L with
  | nil => intro _; rfl
  | cons b l ih =>
      intro h
      simp only [List.orderedInsert]
      by_cases hr : r a b
      · rw [if_pos hr, if_pos ((h b (List.mem_cons_self b l)).1 hr)]
      · rw [if_neg hr, if_neg (fun hs => hr ((h b (List.mem_cons_self b l)).2 hs)),
            ih (fun c hc => h c (List.mem_cons_of_mem b hc))]

/-- Stability, made explicit: on a list whose middle (position)
components are strictly increasing, sorting by rank alone with the
stable insertion sort coincides with sorting by the lexicographic
(rank, position) order. -/
theorem insertionSort_rank_eq_lex :
    ∀ L : List (Nat × Nat × Challenge),
      L.Pairwise (fun p q => p.2.1 < q.2.1) →
      L.insertionSort (fun a b => a.1 ≤ b.1) = L.insertionSort lexLE := by
  intro L
  induction L with
  | nil => intro _; rfl
  | cons a l ih =>
      intro hp
      obtain ⟨ha, hl⟩ := List.pairwise_cons.1 hp
      simp only [List.insertionSort]
      rw [ih hl]
      apply orderedInsert_congr
      intro b hb
      have hb' : b ∈ l := (List.mem_insertionSort lexLE).1 hb
      have hidx := ha b hb'
      unfold lexLE
      omega

/-- C8: for each of the five categories independently, the board on
the room page is obtained by ranking every bank challenge of that
category by the process hash of `(seed, id, title)`, sorting ascending
by rank with ties broken by original bank position (the sort is
stable, so hash collisions neither crash nor reorder
nondeterministically), and keeping the first `min(5, count)`
entries — exactly `boardCategorySpec`. -/
theorem c8_board_spec (pyhash : String → Int) (bank : String → List Challenge)
    (seed : Nat) (c : String) (hc : c ∈ CATEGORIES) :
    (build_room_challenges pyhash bank seed).lookup c =
      some (boardCategorySpec pyhash (bank c) 5 seed) := by
  rw [lookup_build_room_mem pyhash bank seed c hc]
  refine congrArg some ?_
  generalize bank c = items
  unfold seeded_sample boardCategorySpec
  by_cases hemp : items.isEmpty = true
  · rw [if_pos hemp]
    rw [List.isEmpty_iff] at hemp
    subst hemp
    rfl
  · rw [if_neg hemp]
    dsimp only
    have h1 : items.map (fun it => ((pyhash (sampleKey seed it)).natAbs, it)) =
        ((attachIdx 0 items).map
          (fun p => ((pyhash (sampleKey seed p.2)).natAbs, p.1, p.2))).map
          (fun p => (p.1, p.2.2)) := by
      rw [List.map_map]
      have hcomp : ((fun p : Nat × Nat × Challenge => (p.1, p.2.2)) ∘
          (fun p : Nat × Challenge => ((pyhash (sampleKey seed p.2)).natAbs, p.1, p.2))) =
          ((fun it => ((pyhash (sampleKey seed it)).natAbs, it)) ∘ Prod.snd) := rfl
      rw [hcomp, ← List.map_map, attachIdx_map_snd]
    have hpair : ((attachIdx 0 items).map
        (fun p => ((pyhash (sampleKey seed p.2)).natAbs, p.1, p.2))).Pairwise
        (fun p q => p.2.1 < q.2.1) := by
      rw [List.pairwise_map]
      exact attachIdx_pairwise 0 items
    have h2 : (items.map
          (fun it => ((pyhash (sampleKey seed it)).natAbs, it))).insertionSort
          (fun a b => a.1 ≤ b.1) =
        (((attachIdx 0 items).map
          (fun p => ((pyhash (sampleKey seed p.2)).natAbs, p.1, p.2))).insertionSort
          lexLE).map (fun p => (p.1, p.2.2)) := by
      rw [h1]
      rw [← List.map_insertionSort (fun a b : Nat × Nat × Challenge => a.1 ≤ b.1)
            (fun a b : Nat × Challenge => a.1 ≤ b.1) (fun p => (p.1, p.2.2)) _
            (fun a _ b _ => Iff.rfl)]
      rw [insertionSort_rank_eq_lex _ hpair]
    rw [h2, List.length_map, ← List.map_take, List.map_map]
    rfl

/-- C8, witness: on the two-challenge crypto bank the board equals
the spec's stable-sorted selection. -/
theorem c8_witness :
    (build_room_challenges h0 bank0 42).lookup "crypto" =
      some (boardCategorySpec h0 (bank0 "crypto") 5 42) :=
  c8_board_spec h0 bank0 42 "crypto" (by decide)

end MiniCTF
